import Mathlib

/-!
# Snake game (`src/game.js`): the game-state engine

A shallow embedding of the discrete part of `game.js`: the globals that
make up the game state, the tick function `update`, food placement, the
input handlers and the AK47 auto-navigation power-up.  Rendering, audio and
DOM wiring are left out; they never write to the modelled globals.

Numbers are `Int` (the JavaScript values involved are always integral),
`Math.random` is an explicit list of draws, and a function that may fail to
return (the rejection loop of `generateFood`, a `TypeError` on `snake[0]`
of an empty array) returns `Option`.
-/

namespace SnakeGame

/-! ## Configuration (`CONFIG` and the AK47 constants) -/

/-- `CONFIG.gridSize`. -/
def gridSize : Int := 20

/-- `CONFIG.initialSpeed`. -/
def initialSpeed : Int := 150

/-- `CONFIG.speedIncrement`. -/
def speedIncrement : Int := 5

/-- `CONFIG.foodPoints`. -/
def foodPoints : Int := 10

/-- `AK47_SHOTS_LIMIT`. -/
def AK47_SHOTS_LIMIT : Int := 5

/-- `AK47_COOLDOWN`. -/
def AK47_COOLDOWN : Int := 300

/-- `AK47_UNLOCK_SCORE`. -/
def AK47_UNLOCK_SCORE : Int := 50

/-! ## Data model -/

/-- The values of `direction` and `nextDirection`. -/
inductive Direction where
  | UP
  | DOWN
  | LEFT
  | RIGHT
  deriving DecidableEq, Repr

/-- The values of `gameState`. -/
inductive GameState where
  | START
  | PLAYING
  | PAUSED
  | GAMEOVER
  deriving DecidableEq, Repr

/-- The values of `ak47State`. -/
inductive AK47State where
  | LOCKED
  | UNLOCKED
  | COOLDOWN
  deriving DecidableEq, Repr

/-- A grid cell `{ x, y }`. -/
structure Pos where
  x : Int
  y : Int
  deriving DecidableEq, Repr

/-- One pair of draws `Math.floor(Math.random() * CONFIG.gridSize)`: since
`Math.random()` lies in `[0, 1)`, each component is one of `0 .. 19`. -/
abbrev Sample := Fin 20 × Fin 20

/-- A keyboard event, reduced to the two fields the handlers read. -/
structure KeyEvent where
  code : String
  key : String
  deriving DecidableEq, Repr

/-- The mutable globals of `game.js` that the engine reads and writes.
`ak47TimerArmed` says whether the interval stored in `ak47TimerInterval` is
running; `particleBursts` logs the arguments of the `createParticles` calls,
most recent first. -/
structure State where
  snake : List Pos
  food : Pos
  direction : Direction
  nextDirection : Direction
  score : Int
  highScore : Int
  gameSpeed : Int
  gameState : GameState
  ak47State : AK47State
  ak47TimerArmed : Bool
  ak47CooldownRemaining : Int
  ak47AmmoRemaining : Int
  autoNavActive : Bool
  particleBursts : List Pos
  deriving DecidableEq, Repr

/-- The exact opposite of a direction. -/
def Direction.opposite : Direction → Direction
  | .UP => .DOWN
  | .DOWN => .UP
  | .LEFT => .RIGHT
  | .RIGHT => .LEFT

/-! ## Operations -/

/-- The array literal assigned by `resetSnake`. -/
def resetSnake : List Pos :=
  [⟨10, 10⟩, ⟨9, 10⟩, ⟨8, 10⟩]

/-- The test `snake.some(segment => segment.x === p.x && segment.y === p.y)`. -/
def onSnake (snake : List Pos) (p : Pos) : Bool :=
  snake.any (fun segment => segment.x == p.x && segment.y == p.y)

/-- The rejection loop of `generateFood`, run on the given draws: it returns the
first drawn cell that is not on the snake, and `none` when the draws are used
up before the loop has ended. -/
def generateFood (snake : List Pos) : List Sample → Option Pos
  | [] => none
  | (a, b) :: rest =>
    let newFood : Pos := ⟨(a.val : Int), (b.val : Int)⟩
    if !(onSnake snake newFood) then some newFood else generateFood snake rest

/-- The `switch (direction)` of `update`, applied to a copy of the head. -/
def moveHead (head : Pos) : Direction → Pos
  | .UP => { head with y := head.y - 1 }
  | .DOWN => { head with y := head.y + 1 }
  | .LEFT => { head with x := head.x - 1 }
  | .RIGHT => { head with x := head.x + 1 }

/-- The function `createParticles(x, y)`, seen as a request for a burst at cell `(x, y)`. -/
def createParticles (s : State) (x y : Int) : State :=
  { s with particleBursts := ⟨x, y⟩ :: s.particleBursts }

/-- The function `gameOver`. -/
def gameOver (s : State) : State :=
  let s := { s with gameState := GameState.GAMEOVER }
  if s.score > s.highScore then { s with highScore := s.score } else s

/-- The function `deactivateAK47`: start the cooldown and (re)arm its timer. -/
def deactivateAK47 (s : State) : State :=
  { s with
    ak47State := AK47State.COOLDOWN
    ak47CooldownRemaining := AK47_COOLDOWN
    autoNavActive := false
    ak47TimerArmed := true }

/-- The callback that `deactivateAK47` installs with `setInterval`. -/
def cooldownTimer (s : State) : State :=
  if !s.ak47TimerArmed then s else
  let s := { s with ak47CooldownRemaining := s.ak47CooldownRemaining - 1 }
  if s.ak47CooldownRemaining ≤ 0 then
    { s with
      ak47TimerArmed := false
      ak47State := AK47State.LOCKED
      ak47AmmoRemaining := 0 }
  else s

/-- The function `activateAK47`. -/
def activateAK47 (s : State) : State :=
  if s.ak47State ≠ AK47State.UNLOCKED ∨ s.gameState ≠ GameState.PLAYING
      ∨ s.ak47AmmoRemaining ≤ 0 ∨ s.autoNavActive = true then s
  else { s with autoNavActive := true }

/-- The function `autoNavigateToApple`; `none` is the `TypeError` raised by
`head.x` when `snake[0]` is `undefined`. -/
def autoNavigateToApple (s : State) : Option State :=
  if s.autoNavActive = false ∨ s.gameState ≠ GameState.PLAYING then some s else
  match s.snake with
  | [] => none
  | head :: _ =>
    let dx := s.food.x - head.x
    let dy := s.food.y - head.y
    if dx.natAbs > dy.natAbs then
      if dx > 0 ∧ s.direction ≠ Direction.LEFT then
        some { s with nextDirection := Direction.RIGHT }
      else if dx < 0 ∧ s.direction ≠ Direction.RIGHT then
        some { s with nextDirection := Direction.LEFT }
      else if dy > 0 ∧ s.direction ≠ Direction.UP then
        some { s with nextDirection := Direction.DOWN }
      else if dy < 0 ∧ s.direction ≠ Direction.DOWN then
        some { s with nextDirection := Direction.UP }
      else some s
    else
      if dy > 0 ∧ s.direction ≠ Direction.UP then
        some { s with nextDirection := Direction.DOWN }
      else if dy < 0 ∧ s.direction ≠ Direction.DOWN then
        some { s with nextDirection := Direction.UP }
      else if dx > 0 ∧ s.direction ≠ Direction.LEFT then
        some { s with nextDirection := Direction.RIGHT }
      else if dx < 0 ∧ s.direction ≠ Direction.RIGHT then
        some { s with nextDirection := Direction.LEFT }
      else some s

/-- The branch of `update` taken when the new head is on the food (the head
has already been added to `s.snake`): score, new food, particle burst,
power-up unlock, ammunition, speed. -/
def eatFood (s : State) (rnd : List Sample) : Option State :=
  let s := { s with score := s.score + foodPoints }
  match generateFood s.snake rnd with
  | none => none
  | some newFood =>
    let s := { s with food := newFood }
    let s := createParticles s s.food.x s.food.y
    let s :=
      if s.score ≥ AK47_UNLOCK_SCORE ∧ s.ak47State = AK47State.LOCKED then
        { s with ak47State := AK47State.UNLOCKED, ak47AmmoRemaining := AK47_SHOTS_LIMIT }
      else s
    let s :=
      if s.autoNavActive = true ∧ s.ak47AmmoRemaining > 0 then
        let s := { s with
          ak47AmmoRemaining := s.ak47AmmoRemaining - 1
          autoNavActive := false }
        if s.ak47AmmoRemaining = 0 then deactivateAK47 s else s
      else s
    let s :=
      if s.score.tmod 50 = 0 ∧ s.gameSpeed > 50 then
        { s with gameSpeed := s.gameSpeed - speedIncrement }
      else s
    some s

/-- The function `update`, one tick.  On an empty `snake` the copied head has
no coordinates, every comparison with it is false, the pushed head is popped
again, and `autoNavigateToApple` (when it runs) raises a `TypeError`. -/
def update (s : State) (rnd : List Sample) : Option State :=
  if s.gameState ≠ GameState.PLAYING then some s else
  let s := { s with direction := s.nextDirection }
  match s.snake with
  | [] => if s.autoNavActive = true then none else some s
  | seg0 :: _ =>
    let head := moveHead seg0 s.direction
    if head.x < 0 ∨ head.x ≥ gridSize ∨ head.y < 0 ∨ head.y ≥ gridSize then
      some (gameOver s)
    else if onSnake s.snake head = true then
      some (gameOver s)
    else
      let s := { s with snake := head :: s.snake }
      let moved : Option State :=
        if head.x = s.food.x ∧ head.y = s.food.y then eatFood s rnd
        else some { s with snake := s.snake.dropLast }
      match moved with
      | none => none
      | some s =>
        if s.autoNavActive = true ∧ s.gameState = GameState.PLAYING then
          autoNavigateToApple s
        else some s

/-- The function `startGame` (`restartGame` only hides an overlay and calls it). -/
def startGame (s : State) (rnd : List Sample) : Option State :=
  let s := { s with
    gameState := GameState.PLAYING
    direction := Direction.RIGHT
    nextDirection := Direction.RIGHT
    score := 0
    gameSpeed := initialSpeed }
  let s := { s with snake := resetSnake }
  match generateFood s.snake rnd with
  | none => none
  | some newFood => some { s with food := newFood }

/-- The function `restartGame`. -/
def restartGame (s : State) (rnd : List Sample) : Option State :=
  startGame s rnd

/-- The function `togglePause`. -/
def togglePause (s : State) : State :=
  if s.gameState = GameState.PLAYING then { s with gameState := GameState.PAUSED }
  else if s.gameState = GameState.PAUSED then { s with gameState := GameState.PLAYING }
  else s

/-- The function `handleKeyPress`. -/
def handleKeyPress (s : State) (e : KeyEvent) : State :=
  if s.gameState ≠ GameState.PLAYING ∧ s.gameState ≠ GameState.PAUSED then s
  else if e.code = "Space" then togglePause s
  else if s.gameState = GameState.PAUSED then s
  else if e.key = "ArrowUp" ∨ e.key = "w" ∨ e.key = "W" then
    if s.direction ≠ Direction.DOWN then { s with nextDirection := Direction.UP } else s
  else if e.key = "ArrowDown" ∨ e.key = "s" ∨ e.key = "S" then
    if s.direction ≠ Direction.UP then { s with nextDirection := Direction.DOWN } else s
  else if e.key = "ArrowLeft" ∨ e.key = "a" ∨ e.key = "A" then
    if s.direction ≠ Direction.RIGHT then { s with nextDirection := Direction.LEFT } else s
  else if e.key = "ArrowRight" ∨ e.key = "d" ∨ e.key = "D" then
    if s.direction ≠ Direction.LEFT then { s with nextDirection := Direction.RIGHT } else s
  else s

/-- The function `handleAK47Activation`. -/
def handleAK47Activation (s : State) (e : KeyEvent) : State :=
  if e.key = "f" ∨ e.key = "F" then activateAK47 s else s

/-- The function `handleDirectionInput` (control buttons and swipes). -/
def handleDirectionInput (s : State) (dir : Direction) : State :=
  if s.gameState ≠ GameState.PLAYING ∨ s.autoNavActive = true then s else
  match dir with
  | .UP => if s.direction ≠ Direction.DOWN then { s with nextDirection := Direction.UP } else s
  | .DOWN => if s.direction ≠ Direction.UP then { s with nextDirection := Direction.DOWN } else s
  | .LEFT =>
    if s.direction ≠ Direction.RIGHT then { s with nextDirection := Direction.LEFT } else s
  | .RIGHT =>
    if s.direction ≠ Direction.LEFT then { s with nextDirection := Direction.RIGHT } else s

/-- The globals as initialised at load time, after the `DOMContentLoaded`
handler has read the stored high score and called `resetSnake` and
`generateFood`. -/
def domContentLoaded (storedHighScore : Int) (rnd : List Sample) : Option State :=
  match generateFood resetSnake rnd with
  | none => none
  | some newFood =>
    some
      { snake := resetSnake
        food := newFood
        direction := Direction.RIGHT
        nextDirection := Direction.RIGHT
        score := 0
        highScore := storedHighScore
        gameSpeed := initialSpeed
        gameState := GameState.START
        ak47State := AK47State.LOCKED
        ak47TimerArmed := false
        ak47CooldownRemaining := 0
        ak47AmmoRemaining := 0
        autoNavActive := false
        particleBursts := [] }

/-! ## Events and reachable states -/

/-- What can happen after the page has loaded: the callbacks registered by the
`DOMContentLoaded` handler and the two timers. -/
inductive Event where
  -- the game-loop interval fires: update()
  | tick (rnd : List Sample)
  -- a keydown: handleKeyPress, then handleAK47Activation
  | keydown (e : KeyEvent)
  -- a control button or a swipe: handleDirectionInput(dir)
  | directionInput (dir : Direction)
  -- a double click on the canvas: activateAK47()
  | dblclick
  -- the cooldown interval fires
  | cooldownTick
  -- the start button: startGame()
  | startBtn (rnd : List Sample)
  -- the restart button: restartGame()
  | restartBtn (rnd : List Sample)

/-- The effect of one event on the globals. -/
def step (s : State) : Event → Option State
  | .tick rnd => update s rnd
  | .keydown e => some (handleAK47Activation (handleKeyPress s e) e)
  | .directionInput dir => some (handleDirectionInput s dir)
  | .dblclick => some (activateAK47 s)
  | .cooldownTick => some (cooldownTimer s)
  | .startBtn rnd => startGame s rnd
  | .restartBtn rnd => restartGame s rnd

/-- Run a sequence of events, oldest first. -/
def run (s : State) : List Event → Option State
  | [] => some s
  | e :: es => (step s e).bind (fun s' => run s' es)

/-- The states reachable from `startGame()`: the page loads, `startGame()` is
called, and then any events happen in any order. -/
inductive Reachable : State → Prop where
  | start (storedHighScore : Int) (rnd0 rnd : List Sample) (s0 s : State) :
      domContentLoaded storedHighScore rnd0 = some s0 → startGame s0 rnd = some s → Reachable s
  | step (s : State) (e : Event) (s' : State) :
      Reachable s → step s e = some s' → Reachable s'

/-- The cell the head would enter on the next tick: `snake[0]` moved one cell
in `nextDirection`. -/
def newHead (s : State) : Option Pos :=
  s.snake.head?.map (fun seg0 => moveHead seg0 s.nextDirection)

/-- A cell lies in the grid `[0, gridSize) x [0, gridSize)`. -/
def inGrid (p : Pos) : Prop :=
  0 ≤ p.x ∧ p.x < gridSize ∧ 0 ≤ p.y ∧ p.y < gridSize

instance (p : Pos) : Decidable (inGrid p) := by
  unfold inGrid; infer_instance

/-- A tick on which the snake eats: the game is running and the new head is in
the grid, off the snake and on the food. -/
def eatsFood (s : State) : Prop :=
  s.gameState = GameState.PLAYING ∧
    ∃ h, newHead s = some h ∧ inGrid h ∧ h ∉ s.snake ∧ h = s.food

/-- A tick on which the snake hits a wall or itself. -/
def collides (s : State) : Prop :=
  ∃ h, newHead s = some h ∧ (¬ inGrid h ∨ h ∈ s.snake)

/-- The step of `update` that follows the food test: auto-navigation. -/
def autoNavStep (s : State) : Option State :=
  if s.autoNavActive = true ∧ s.gameState = GameState.PLAYING then autoNavigateToApple s
  else some s

/-- The state in which `update` takes its decisions: the pending direction
has been committed. -/
def commit (s : State) : State :=
  { s with direction := s.nextDirection }

/-- The draws are enough for the tick: if the snake eats, one of them is a cell
off the grown snake, so that the loop of `generateFood` ends. -/
def foodLoopEnds (s : State) (rnd : List Sample) : Prop :=
  ∀ x, eatsFood s → newHead s = some x →
    ∃ c ∈ rnd, (⟨(c.1.val : Int), (c.2.val : Int)⟩ : Pos) ∉ x :: s.snake

/-! ## Auto-navigation: the choice of the code and the words of the spec -/

/-- The direction that the `if` chain of `autoNavigateToApple` leaves in
`nextDirection`, from the two deltas, the committed and the pending direction. -/
def autoNavChoice (dx dy : Int) (direction nextDirection : Direction) : Direction :=
  if dx.natAbs > dy.natAbs then
    if dx > 0 ∧ direction ≠ Direction.LEFT then Direction.RIGHT
    else if dx < 0 ∧ direction ≠ Direction.RIGHT then Direction.LEFT
    else if dy > 0 ∧ direction ≠ Direction.UP then Direction.DOWN
    else if dy < 0 ∧ direction ≠ Direction.DOWN then Direction.UP
    else nextDirection
  else
    if dy > 0 ∧ direction ≠ Direction.UP then Direction.DOWN
    else if dy < 0 ∧ direction ≠ Direction.DOWN then Direction.UP
    else if dx > 0 ∧ direction ≠ Direction.LEFT then Direction.RIGHT
    else if dx < 0 ∧ direction ≠ Direction.RIGHT then Direction.LEFT
    else nextDirection

/-- The axis of a move: `true` for LEFT and RIGHT, `false` for UP and DOWN. -/
def Direction.horizontal : Direction → Bool
  | .LEFT => true
  | .RIGHT => true
  | .UP => false
  | .DOWN => false

/-- The preferred move of the auto-navigation in the words of the spec: the
step along the axis of larger absolute delta between head and food, in the sign
that reduces that delta (none when neither delta is larger, or without a head). -/
def specPreferredMove (s : State) : Option Direction :=
  match s.snake with
  | [] => none
  | head :: _ =>
    let dx := s.food.x - head.x
    let dy := s.food.y - head.y
    if dx.natAbs > dy.natAbs then
      if dx > 0 then some Direction.RIGHT else some Direction.LEFT
    else if dy.natAbs > dx.natAbs then
      if dy > 0 then some Direction.DOWN else some Direction.UP
    else none

/-- The move along the other axis than `specPreferredMove` that reduces the
delta on that axis; none when that delta is zero. -/
def specSecondaryMove (s : State) : Option Direction :=
  match s.snake with
  | [] => none
  | head :: _ =>
    let dx := s.food.x - head.x
    let dy := s.food.y - head.y
    if dx.natAbs > dy.natAbs then
      if dy > 0 then some Direction.DOWN else if dy < 0 then some Direction.UP else none
    else if dy.natAbs > dx.natAbs then
      if dx > 0 then some Direction.RIGHT else if dx < 0 then some Direction.LEFT else none
    else none

/-! ## Invariants -/

/-- The pending direction is not the exact opposite of the committed one. -/
def NoReverse (s : State) : Prop :=
  s.nextDirection ≠ s.direction.opposite

/-- The food is a grid cell that is not on the snake. -/
def FoodFree (s : State) : Prop :=
  inGrid s.food ∧ s.food ∉ s.snake

/-- A snake is well formed: non-empty, inside the grid, without repeated segment. -/
def WellFormed (snake : List Pos) : Prop :=
  snake ≠ [] ∧ (∀ p ∈ snake, inGrid p) ∧ snake.Nodup

/-- The score counts the segments grown since the start, `foodPoints` each. -/
def ScoreInv (s : State) : Prop :=
  0 ≤ s.score ∧ s.score = foodPoints * ((s.snake.length : Int) - 3)

/-- The speed ramp with its floor. -/
def SpeedInv (s : State) : Prop :=
  s.gameSpeed = max 50 (initialSpeed - speedIncrement * (s.score / 50))

/-- Two states agree on the board: snake, food, score, speed and committed direction. -/
def SameBoard (s s' : State) : Prop :=
  s'.snake = s.snake ∧ s'.food = s.food ∧ s'.score = s.score
    ∧ s'.gameSpeed = s.gameSpeed ∧ s'.direction = s.direction

/-- All the invariants of the reachable states together. -/
def Inv (s : State) : Prop :=
  NoReverse s ∧ FoodFree s ∧ WellFormed s.snake ∧ ScoreInv s ∧ SpeedInv s

/-! ## Example states -/

/-- A running game with the given snake, pending direction, food and score;
the power-up is locked and idle. -/
def playing (snake : List Pos) (dir : Direction) (food : Pos) (score : Int) : State :=
  { snake := snake
    food := food
    direction := dir
    nextDirection := dir
    score := score
    highScore := 0
    gameSpeed := initialSpeed
    gameState := GameState.PLAYING
    ak47State := AK47State.LOCKED
    ak47TimerArmed := false
    ak47CooldownRemaining := 0
    ak47AmmoRemaining := 0
    autoNavActive := false
    particleBursts := [] }

/-- The snake of the first example of the spec, heading right, the food just ahead. -/
def aboutToEat : State :=
  playing [⟨10, 10⟩, ⟨9, 10⟩, ⟨8, 10⟩] Direction.RIGHT ⟨11, 10⟩ 0

/-- The snake of the second example of the spec, heading left into the wall. -/
def aboutToCrash : State :=
  playing [⟨0, 10⟩, ⟨1, 10⟩, ⟨2, 10⟩] Direction.LEFT ⟨5, 5⟩ 0

/-- The globals once the page has loaded, with stored high score 0 and the
first food drawn at `(3,3)`. -/
def loaded : State :=
  { playing resetSnake Direction.RIGHT ⟨3, 3⟩ 0 with gameState := GameState.START }

/-- The game just started from `loaded`, the food drawn at `(11,10)`. -/
def started : State :=
  playing resetSnake Direction.RIGHT ⟨11, 10⟩ 0

/-- Five ticks, each eating the food and drawing the next one a cell further
right, the last one drawing `(5,5)`. -/
def fiveTicks : List Event :=
  [Event.tick [(12, 10)], Event.tick [(13, 10)], Event.tick [(14, 10)], Event.tick [(15, 10)],
    Event.tick [(5, 5)]]

/-- The game after `fiveTicks`: score 50, speed 145, power-up unlocked with 5 shots. -/
def fiveApples : State :=
  { snake := [⟨15, 10⟩, ⟨14, 10⟩, ⟨13, 10⟩, ⟨12, 10⟩, ⟨11, 10⟩, ⟨10, 10⟩, ⟨9, 10⟩, ⟨8, 10⟩]
    food := ⟨5, 5⟩
    direction := Direction.RIGHT
    nextDirection := Direction.RIGHT
    score := 50
    highScore := 0
    gameSpeed := 145
    gameState := GameState.PLAYING
    ak47State := AK47State.UNLOCKED
    ak47TimerArmed := false
    ak47CooldownRemaining := 0
    ak47AmmoRemaining := 5
    autoNavActive := false
    particleBursts := [⟨5, 5⟩, ⟨15, 10⟩, ⟨14, 10⟩, ⟨13, 10⟩, ⟨12, 10⟩] }

/-- The key `F`. -/
def keyF : KeyEvent :=
  { code := "KeyF", key := "f" }

/-- The key `ArrowUp`. -/
def keyArrowUp : KeyEvent :=
  { code := "ArrowUp", key := "ArrowUp" }

/-- The game of `fiveApples` after the key `F`: auto-navigation is active. -/
def autoNavOn : State :=
  { fiveApples with autoNavActive := true }

/-- A game with 40 points, locked power-up, the food just ahead of the head. -/
def score40 : State :=
  playing [⟨10, 10⟩, ⟨9, 10⟩, ⟨8, 10⟩, ⟨7, 10⟩, ⟨6, 10⟩, ⟨5, 10⟩, ⟨4, 10⟩] Direction.RIGHT
    ⟨11, 10⟩ 40

/-- A game with auto-navigation active on its last shot, the food just ahead of the head. -/
def lastShot : State :=
  { playing [⟨10, 10⟩, ⟨9, 10⟩, ⟨8, 10⟩] Direction.RIGHT ⟨11, 10⟩ 90 with
    ak47State := AK47State.UNLOCKED
    ak47AmmoRemaining := 1
    autoNavActive := true }

/-- Five eating ticks, the last one drawing the new food at `(3,10)`, behind
the snake on its own row; then the key `F`; then one more tick. -/
def runAwayEvents : List Event :=
  [Event.tick [(12, 10)], Event.tick [(13, 10)], Event.tick [(14, 10)], Event.tick [(15, 10)],
    Event.tick [(3, 10)], Event.keydown keyF, Event.tick []]

/-- The game after `runAwayEvents`: auto-navigation is active, the snake heads
RIGHT on row 10 and the food lies on the same row to its left. -/
def runningAway : State :=
  { fiveApples with
    snake := [⟨16, 10⟩, ⟨15, 10⟩, ⟨14, 10⟩, ⟨13, 10⟩, ⟨12, 10⟩, ⟨11, 10⟩, ⟨10, 10⟩, ⟨9, 10⟩]
    food := ⟨3, 10⟩
    autoNavActive := true
    particleBursts := [⟨3, 10⟩, ⟨15, 10⟩, ⟨14, 10⟩, ⟨13, 10⟩, ⟨12, 10⟩] }

/-! ## Basic facts -/

theorem onSnake_iff (snake : List Pos) (p : Pos) : onSnake snake p = true ↔ p ∈ snake := by
  unfold onSnake
  rw [List.any_eq_true]
  constructor
  · rintro ⟨q, hq, h⟩
    simp only [Bool.and_eq_true, beq_iff_eq] at h
    have : q = p := by cases q; cases p; simp_all
    exact this ▸ hq
  · intro h
    exact ⟨p, h, by simp⟩

theorem onSnake_false_iff (snake : List Pos) (p : Pos) :
    onSnake snake p = false ↔ p ∉ snake := by
  rw [← onSnake_iff]; simp

theorem generateFood_spec (snake : List Pos) (rnd : List Sample) (f : Pos)
    (h : generateFood snake rnd = some f) : inGrid f ∧ f ∉ snake := by
  induction rnd with
  | nil => simp [generateFood] at h
  | cons c rest ih =>
    obtain ⟨a, b⟩ := c
    simp only [generateFood] at h
    split at h
    · rename_i hfree
      simp only [Option.some.injEq] at h
      subst h
      refine ⟨?_, ?_⟩
      · have ha := a.isLt
        have hb := b.isLt
        simp only [inGrid, gridSize]
        omega
      · rw [← onSnake_false_iff]; simpa using hfree
    · exact ih h

theorem generateFood_returns (snake : List Pos) (rnd : List Sample)
    (h : ∃ c ∈ rnd, (⟨(c.1.val : Int), (c.2.val : Int)⟩ : Pos) ∉ snake) :
    ∃ f, generateFood snake rnd = some f := by
  induction rnd with
  | nil => simp at h
  | cons c rest ih =>
    obtain ⟨a, b⟩ := c
    simp only [generateFood]
    split
    · exact ⟨_, rfl⟩
    · rename_i hocc
      apply ih
      obtain ⟨c, hc, hfree⟩ := h
      rcases List.mem_cons.mp hc with rfl | hc
      · exfalso
        apply hocc
        simp [onSnake_false_iff, hfree]
      · exact ⟨c, hc, hfree⟩

theorem autoNavigateToApple_frame (s s' : State) (h : autoNavigateToApple s = some s') :
    s' = { s with nextDirection := s'.nextDirection } := by
  unfold autoNavigateToApple at h
  split at h
  · simp only [Option.some.injEq] at h; subst h; rfl
  · split at h
    · simp at h
    · simp only at h
      repeat' split at h
      all_goals (simp only [Option.some.injEq] at h; subst h; rfl)

theorem autoNavigateToApple_returns (s : State) (hs : s.snake ≠ []) :
    ∃ s', autoNavigateToApple s = some s' := by
  unfold autoNavigateToApple
  split
  · exact ⟨_, rfl⟩
  · split
    · exact absurd ‹s.snake = []› hs
    · simp only
      repeat' split
      all_goals exact ⟨_, rfl⟩

theorem autoNavStep_frame (s s' : State) (h : autoNavStep s = some s') :
    s' = { s with nextDirection := s'.nextDirection } := by
  unfold autoNavStep at h
  split at h
  · exact autoNavigateToApple_frame s s' h
  · simp only [Option.some.injEq] at h; subst h; rfl

theorem autoNavStep_returns (s : State) (hs : s.snake ≠ []) :
    ∃ s', autoNavStep s = some s' := by
  unfold autoNavStep
  split
  · exact autoNavigateToApple_returns s hs
  · exact ⟨_, rfl⟩

theorem update_not_playing (s : State) (rnd : List Sample)
    (h : s.gameState ≠ GameState.PLAYING) : update s rnd = some s := by
  simp [update, h]

theorem update_collide (s : State) (rnd : List Sample) (seg0 : Pos) (t : List Pos)
    (hplay : s.gameState = GameState.PLAYING) (hs : s.snake = seg0 :: t)
    (hc : ¬ inGrid (moveHead seg0 s.nextDirection) ∨ moveHead seg0 s.nextDirection ∈ s.snake) :
    update s rnd = some (gameOver (commit s)) := by
  cases s
  simp only at hplay hs hc
  subst hplay hs
  simp only [update, ne_eq, not_true_eq_false, if_false, commit]
  split
  · rfl
  · rename_i hin
    split
    · rfl
    · rename_i hon
      exfalso
      rcases hc with hc | hc
      · apply hc
        simp only [inGrid]
        omega
      · exact hon ((onSnake_iff _ _).mpr hc)

theorem update_move (s : State) (rnd : List Sample) (seg0 : Pos) (t : List Pos)
    (hplay : s.gameState = GameState.PLAYING) (hs : s.snake = seg0 :: t)
    (hin : inGrid (moveHead seg0 s.nextDirection))
    (hfree : moveHead seg0 s.nextDirection ∉ s.snake)
    (hfood : moveHead seg0 s.nextDirection ≠ s.food) :
    update s rnd = autoNavStep
      { commit s with snake := moveHead seg0 s.nextDirection :: (seg0 :: t).dropLast } := by
  cases s
  simp only at hplay hs hin hfree hfood
  subst hplay hs
  rename_i food direction nextDirection _ _ _ _ _ _ _ _ _
  have h1 : ¬ ((moveHead seg0 nextDirection).x < 0 ∨ (moveHead seg0 nextDirection).x ≥ gridSize
      ∨ (moveHead seg0 nextDirection).y < 0 ∨ (moveHead seg0 nextDirection).y ≥ gridSize) := by
    simp only [inGrid] at hin
    omega
  have h2 : ¬ (onSnake (seg0 :: t) (moveHead seg0 nextDirection) = true) := by
    rw [onSnake_iff]; exact hfree
  have h3 : ¬ ((moveHead seg0 nextDirection).x = food.x
      ∧ (moveHead seg0 nextDirection).y = food.y) := by
    rintro ⟨hx, hy⟩
    apply hfood
    cases hm : moveHead seg0 nextDirection
    cases food
    simp_all
  simp only [update, ne_eq, not_true_eq_false, if_false, commit, if_neg h1, if_neg h2, if_neg h3,
    autoNavStep]
  rfl

theorem update_eat (s : State) (rnd : List Sample) (seg0 : Pos) (t : List Pos)
    (hplay : s.gameState = GameState.PLAYING) (hs : s.snake = seg0 :: t)
    (hin : inGrid (moveHead seg0 s.nextDirection))
    (hfree : moveHead seg0 s.nextDirection ∉ s.snake)
    (hfood : moveHead seg0 s.nextDirection = s.food) :
    update s rnd =
      (eatFood { commit s with snake := moveHead seg0 s.nextDirection :: seg0 :: t } rnd).bind
        autoNavStep := by
  cases s
  simp only at hplay hs hin hfree hfood
  subst hplay hs
  rename_i food direction nextDirection _ _ _ _ _ _ _ _ _
  have h1 : ¬ ((moveHead seg0 nextDirection).x < 0 ∨ (moveHead seg0 nextDirection).x ≥ gridSize
      ∨ (moveHead seg0 nextDirection).y < 0 ∨ (moveHead seg0 nextDirection).y ≥ gridSize) := by
    simp only [inGrid] at hin
    omega
  have h2 : ¬ (onSnake (seg0 :: t) (moveHead seg0 nextDirection) = true) := by
    rw [onSnake_iff]; exact hfree
  have h3 : (moveHead seg0 nextDirection).x = food.x
      ∧ (moveHead seg0 nextDirection).y = food.y := by
    rw [hfood]; exact ⟨rfl, rfl⟩
  simp only [update, ne_eq, not_true_eq_false, if_false, commit, if_neg h1, if_neg h2, if_pos h3]
  cases eatFood _ rnd <;> rfl

theorem eatFood_basic (s s' : State) (rnd : List Sample) (h : eatFood s rnd = some s') :
    generateFood s.snake rnd = some s'.food ∧ s'.snake = s.snake
      ∧ s'.score = s.score + foodPoints ∧ s'.direction = s.direction
      ∧ s'.nextDirection = s.nextDirection ∧ s'.gameState = s.gameState
      ∧ s'.highScore = s.highScore
      ∧ s'.particleBursts = s'.food :: s.particleBursts := by
  unfold eatFood at h
  simp only at h
  split at h
  · simp at h
  · rename_i f hf
    simp only [Option.some.injEq] at h
    subst h
    simp only [createParticles, deactivateAK47]
    split_ifs <;> simp [hf]

theorem eatFood_returns (s : State) (rnd : List Sample) (f : Pos)
    (h : generateFood s.snake rnd = some f) : ∃ s', eatFood s rnd = some s' := by
  unfold eatFood
  simp only [h]
  exact ⟨_, rfl⟩

theorem eatFood_speed (s s' : State) (rnd : List Sample) (h : eatFood s rnd = some s') :
    s'.gameSpeed =
      if (s.score + foodPoints).tmod 50 = 0 ∧ s.gameSpeed > 50 then s.gameSpeed - speedIncrement
      else s.gameSpeed := by
  unfold eatFood at h
  simp only at h
  split at h
  · simp at h
  · simp only [Option.some.injEq] at h
    subst h
    simp only [createParticles, deactivateAK47]
    split_ifs <;> simp_all

theorem update_empty (s : State) (rnd : List Sample)
    (hplay : s.gameState = GameState.PLAYING) (hs : s.snake = []) :
    update s rnd = none ∨ update s rnd = some (commit s) := by
  cases s
  simp only at hplay hs
  subst hplay hs
  simp only [update, ne_eq, not_true_eq_false, if_false, commit]
  split
  · exact Or.inl rfl
  · exact Or.inr rfl

theorem newHead_cons (s : State) (seg0 : Pos) (t : List Pos) (hs : s.snake = seg0 :: t) :
    newHead s = some (moveHead seg0 s.nextDirection) := by
  simp [newHead, hs]

/-- The five ways a tick can go. -/
theorem update_cases (s : State) (rnd : List Sample) :
    (s.gameState ≠ GameState.PLAYING ∧ update s rnd = some s)
    ∨ (s.gameState = GameState.PLAYING ∧ s.snake = []
        ∧ (update s rnd = none ∨ update s rnd = some (commit s)))
    ∨ (s.gameState = GameState.PLAYING ∧ collides s
        ∧ update s rnd = some (gameOver (commit s)))
    ∨ (s.gameState = GameState.PLAYING
        ∧ ∃ h, newHead s = some h ∧ inGrid h ∧ h ∉ s.snake ∧ h ≠ s.food ∧ s.snake ≠ []
          ∧ update s rnd = autoNavStep { commit s with snake := h :: s.snake.dropLast })
    ∨ (s.gameState = GameState.PLAYING
        ∧ ∃ h, newHead s = some h ∧ inGrid h ∧ h ∉ s.snake ∧ h = s.food ∧ s.snake ≠ []
          ∧ update s rnd = (eatFood { commit s with snake := h :: s.snake } rnd).bind
              autoNavStep) := by
  by_cases hplay : s.gameState = GameState.PLAYING
  swap
  · exact Or.inl ⟨hplay, update_not_playing s rnd hplay⟩
  right
  by_cases hnil : s.snake = []
  · exact Or.inl ⟨hplay, hnil, update_empty s rnd hplay hnil⟩
  · obtain ⟨seg0, t, hs⟩ := List.exists_cons_of_ne_nil hnil
    right
    have hnh := newHead_cons s seg0 t hs
    by_cases hc : ¬ inGrid (moveHead seg0 s.nextDirection) ∨ moveHead seg0 s.nextDirection ∈ s.snake
    · exact Or.inl ⟨hplay, ⟨_, hnh, hc⟩, update_collide s rnd seg0 t hplay hs hc⟩
    · right
      push_neg at hc
      obtain ⟨hin, hfree⟩ := hc
      by_cases hfood : moveHead seg0 s.nextDirection = s.food
      · refine Or.inr ⟨hplay, _, hnh, hin, hfree, hfood, hnil, ?_⟩
        rw [update_eat s rnd seg0 t hplay hs hin hfree hfood, hs]
      · refine Or.inl ⟨hplay, _, hnh, hin, hfree, hfood, hnil, ?_⟩
        rw [update_move s rnd seg0 t hplay hs hin hfree hfood, hs]

/-- C1 (`update`, lines 213-286): in a PLAYING state whose new head `h` is in the
grid and on no snake segment, a tick that finds the food at `h` leaves
`snake = h :: oldSnake` (length + 1) and returns as soon as one of the draws
is a free cell, and a tick that does not find the food at `h` returns with
`snake = h :: (oldSnake without its last segment)` (same length); and on every
tick that is not a food-consumption tick the length of the snake is unchanged. -/
theorem update_snake_growth (s : State) (rnd : List Sample) :
    (∀ h, s.gameState = GameState.PLAYING → newHead s = some h → inGrid h → h ∉ s.snake →
      (h = s.food →
        (∀ s', update s rnd = some s' →
          s'.snake = h :: s.snake ∧ s'.snake.length = s.snake.length + 1)
        ∧ ((∃ c ∈ rnd, (⟨(c.1.val : Int), (c.2.val : Int)⟩ : Pos) ∉ h :: s.snake) →
            ∃ s', update s rnd = some s'))
      ∧ (h ≠ s.food →
          ∃ s', update s rnd = some s' ∧ s'.snake = h :: s.snake.dropLast
            ∧ s'.snake.length = s.snake.length))
    ∧ (∀ s', update s rnd = some s' → ¬ eatsFood s → s'.snake.length = s.snake.length) := by
  constructor
  · intro h hplay hnh hin hfree
    cases hs : s.snake with
    | nil => simp [newHead, hs] at hnh
    | cons seg0 t =>
      rw [newHead_cons s seg0 t hs, Option.some.injEq] at hnh
      subst hnh
      rw [← hs]
      refine ⟨fun hfood => ⟨?_, ?_⟩, fun hfood => ?_⟩
      · intro s' hs'
        rw [update_eat s rnd seg0 t hplay hs hin hfree hfood, Option.bind_eq_some] at hs'
        obtain ⟨s1, h1, h2⟩ := hs'
        have hb := eatFood_basic _ _ _ h1
        have hf := autoNavStep_frame _ _ h2
        have : s'.snake = moveHead seg0 s.nextDirection :: s.snake := by
          rw [hf]; simp [hb.2.1, hs]
        exact ⟨this, by rw [this]; simp⟩
      · intro hex
        rw [update_eat s rnd seg0 t hplay hs hin hfree hfood]
        obtain ⟨f, hf⟩ := generateFood_returns (moveHead seg0 s.nextDirection :: s.snake) rnd hex
        obtain ⟨s1, h1⟩ := eatFood_returns
          { commit s with snake := moveHead seg0 s.nextDirection :: seg0 :: t } rnd f
          (by simpa [hs] using hf)
        obtain ⟨s2, h2⟩ := autoNavStep_returns s1
          (by rw [(eatFood_basic _ _ _ h1).2.1]; simp)
        exact ⟨s2, by rw [h1]; exact h2⟩
      · rw [update_move s rnd seg0 t hplay hs hin hfree hfood]
        obtain ⟨s2, h2⟩ := autoNavStep_returns
          { commit s with snake := moveHead seg0 s.nextDirection :: (seg0 :: t).dropLast }
          (by simp)
        have hf := autoNavStep_frame _ _ h2
        have : s2.snake = moveHead seg0 s.nextDirection :: s.snake.dropLast := by
          rw [hf]; simp [hs]
        refine ⟨s2, h2, this, ?_⟩
        rw [this, hs]; simp
  · intro s' hs' hne
    rcases update_cases s rnd with ⟨-, h⟩ | ⟨-, -, h⟩ | ⟨-, -, h⟩ | ⟨-, h, -, -, -, -, hne0, hu⟩
      | ⟨hplay, h, hnh, hin, hfree, hfood, -, -⟩
    · rw [h, Option.some.injEq] at hs'; subst hs'; rfl
    · rcases h with h | h
      · rw [h] at hs'; simp at hs'
      · rw [h, Option.some.injEq] at hs'; subst hs'; rfl
    · rw [h, Option.some.injEq] at hs'; subst hs'
      simp only [gameOver, commit]
      split_ifs <;> rfl
    · rw [hu] at hs'
      rw [autoNavStep_frame _ _ hs']
      simp only [List.length_cons, List.length_dropLast]
      have : 0 < s.snake.length := List.length_pos.mpr hne0
      omega
    · exact absurd ⟨hplay, h, hnh, hin, hfree, hfood⟩ hne

/-- Witness for C1: snake `[(10,10),(9,10),(8,10)]` heading RIGHT with the food at
`(11,10)`; the tick returns with the head at `(11,10)` and 4 segments. -/
theorem update_snake_growth_witness :
    ∃ s', update aboutToEat [(5, 5)] = some s'
      ∧ s'.snake = (⟨11, 10⟩ : Pos) :: aboutToEat.snake ∧ s'.snake.length = 3 + 1 := by
  have h := ((update_snake_growth aboutToEat [(5, 5)]).1 ⟨11, 10⟩ rfl rfl (by decide)
    (by decide)).1 rfl
  obtain ⟨s', hs'⟩ := h.2 ⟨(5, 5), by simp, by decide⟩
  exact ⟨s', hs', h.1 s' hs'⟩

theorem gameOver_frame (s : State) :
    (gameOver s).gameState = GameState.GAMEOVER ∧ (gameOver s).snake = s.snake
      ∧ (gameOver s).food = s.food ∧ (gameOver s).score = s.score
      ∧ (gameOver s).gameSpeed = s.gameSpeed ∧ (gameOver s).direction = s.direction
      ∧ (gameOver s).nextDirection = s.nextDirection
      ∧ (gameOver s).ak47State = s.ak47State
      ∧ (gameOver s).ak47AmmoRemaining = s.ak47AmmoRemaining
      ∧ (gameOver s).autoNavActive = s.autoNavActive := by
  simp only [gameOver]
  split_ifs <;> simp

/-- C2 (`update`, lines 213-246, and `gameOver`): from a PLAYING state a tick
ends with `gameState = GAMEOVER` exactly when the new head is outside the grid
or equal to a segment of the current snake (tail included), and then it
returns with `snake`, `food`, `score` and `gameSpeed` unchanged. -/
theorem update_gameover_iff (s : State) (rnd : List Sample)
    (hplay : s.gameState = GameState.PLAYING) :
    ((∃ s', update s rnd = some s' ∧ s'.gameState = GameState.GAMEOVER) ↔
      ∃ h, newHead s = some h ∧ (¬ inGrid h ∨ h ∈ s.snake))
    ∧ ((∃ h, newHead s = some h ∧ (¬ inGrid h ∨ h ∈ s.snake)) →
        ∃ s', update s rnd = some s' ∧ s'.gameState = GameState.GAMEOVER
          ∧ s'.snake = s.snake ∧ s'.food = s.food ∧ s'.score = s.score
          ∧ s'.gameSpeed = s.gameSpeed) := by
  have key : (∃ h, newHead s = some h ∧ (¬ inGrid h ∨ h ∈ s.snake)) →
      ∃ s', update s rnd = some s' ∧ s'.gameState = GameState.GAMEOVER
        ∧ s'.snake = s.snake ∧ s'.food = s.food ∧ s'.score = s.score
        ∧ s'.gameSpeed = s.gameSpeed := by
    rintro ⟨h, hnh, hc⟩
    by_cases hnil : s.snake = []
    · simp [newHead, hnil] at hnh
    obtain ⟨seg0, t, hs⟩ := List.exists_cons_of_ne_nil hnil
    rw [newHead_cons s seg0 t hs, Option.some.injEq] at hnh
    subst hnh
    have hg := gameOver_frame (commit s)
    exact ⟨_, update_collide s rnd seg0 t hplay hs hc, hg.1, hg.2.1, hg.2.2.1, hg.2.2.2.1,
      hg.2.2.2.2.1⟩
  refine ⟨⟨?_, fun hc => ?_⟩, key⟩
  · rintro ⟨s', hs', hover⟩
    rcases update_cases s rnd with ⟨hn, -⟩ | ⟨-, -, h⟩ | ⟨-, hc, -⟩ | ⟨-, h, -, -, -, -, -, hu⟩
      | ⟨-, h, -, -, -, -, -, hu⟩
    · exact absurd hplay hn
    · rcases h with h | h
      · rw [h] at hs'; simp at hs'
      · rw [h, Option.some.injEq] at hs'; subst hs'
        simp [commit, hplay] at hover
    · exact hc
    · rw [hu] at hs'
      rw [autoNavStep_frame _ _ hs'] at hover
      simp [commit, hplay] at hover
    · rw [hu, Option.bind_eq_some] at hs'
      obtain ⟨s1, h1, h2⟩ := hs'
      rw [autoNavStep_frame _ _ h2] at hover
      simp only at hover
      rw [(eatFood_basic _ _ _ h1).2.2.2.2.2.1] at hover
      simp [commit, hplay] at hover
  · obtain ⟨s', hs', hover, -⟩ := key hc
    exact ⟨s', hs', hover⟩

/-- Witness for C2: snake `[(0,10),(1,10),(2,10)]` heading LEFT; the new head
`(-1,10)` is outside the grid and the tick ends in GAMEOVER. -/
theorem update_gameover_iff_witness :
    newHead aboutToCrash = some ⟨-1, 10⟩ ∧
      ∃ s', update aboutToCrash [] = some s' ∧ s'.gameState = GameState.GAMEOVER
        ∧ s'.snake = aboutToCrash.snake ∧ s'.food = aboutToCrash.food
        ∧ s'.score = aboutToCrash.score ∧ s'.gameSpeed = aboutToCrash.gameSpeed :=
  ⟨by decide,
    (update_gameover_iff aboutToCrash [] rfl).2 ⟨⟨-1, 10⟩, by decide, Or.inl (by decide)⟩⟩

/-! ## Events other than ticks leave the board alone -/

theorem togglePause_board (s : State) :
    SameBoard s (togglePause s) ∧ (togglePause s).nextDirection = s.nextDirection := by
  simp only [togglePause, SameBoard]
  split_ifs <;> simp

theorem handleKeyPress_board (s : State) (e : KeyEvent) :
    SameBoard s (handleKeyPress s e) := by
  simp only [handleKeyPress, SameBoard, togglePause]
  split_ifs <;> simp

theorem handleKeyPress_noReverse (s : State) (e : KeyEvent) (h : NoReverse s) :
    NoReverse (handleKeyPress s e) := by
  simp only [NoReverse] at h
  simp only [handleKeyPress, NoReverse, togglePause]
  split_ifs <;> first | exact h | (cases hd : s.direction <;> simp_all [Direction.opposite])

theorem activateAK47_board (s : State) :
    SameBoard s (activateAK47 s) ∧ (activateAK47 s).nextDirection = s.nextDirection := by
  simp only [activateAK47, SameBoard]
  split_ifs <;> simp

theorem handleAK47Activation_board (s : State) (e : KeyEvent) :
    SameBoard s (handleAK47Activation s e)
      ∧ (handleAK47Activation s e).nextDirection = s.nextDirection := by
  simp only [handleAK47Activation]
  split_ifs
  · exact activateAK47_board s
  · simp [SameBoard]

theorem handleDirectionInput_board (s : State) (dir : Direction) :
    SameBoard s (handleDirectionInput s dir) := by
  simp only [handleDirectionInput, SameBoard]
  cases dir <;> simp only <;> split_ifs <;> simp

theorem handleDirectionInput_noReverse (s : State) (dir : Direction) (h : NoReverse s) :
    NoReverse (handleDirectionInput s dir) := by
  simp only [NoReverse] at h
  simp only [handleDirectionInput, NoReverse]
  cases dir <;> simp only <;> split_ifs <;>
    first | exact h | (cases hd : s.direction <;> simp_all [Direction.opposite])

theorem cooldownTimer_board (s : State) :
    SameBoard s (cooldownTimer s) ∧ (cooldownTimer s).nextDirection = s.nextDirection := by
  simp only [cooldownTimer, SameBoard]
  split_ifs <;> simp

theorem sameBoard_inv (s s' : State) (hb : SameBoard s s') (hn : NoReverse s')
    (h : Inv s) : Inv s' := by
  obtain ⟨h1, h2, h3, h4, h5⟩ := hb
  obtain ⟨-, i2, i3, i4, i5⟩ := h
  refine ⟨hn, ?_, ?_, ?_, ?_⟩
  · simpa only [FoodFree, h1, h2] using i2
  · simpa only [h1] using i3
  · simpa only [ScoreInv, h1, h3] using i4
  · simpa only [SpeedInv, h3, h4] using i5

/-! ## Ticks and starts keep the invariants -/

theorem autoNavigateToApple_noReverse (s s' : State) (h : NoReverse s)
    (hs : autoNavigateToApple s = some s') : NoReverse s' := by
  simp only [NoReverse] at h
  unfold autoNavigateToApple at hs
  split at hs
  · simp only [Option.some.injEq] at hs; subst hs; exact h
  · split at hs
    · simp at hs
    · simp only at hs
      repeat' split at hs
      all_goals
        simp only [Option.some.injEq] at hs
        subst hs
        first
          | exact h
          | (simp only [NoReverse]; cases hd : s.direction <;> simp_all [Direction.opposite])

theorem autoNavStep_noReverse (s s' : State) (h : NoReverse s)
    (hs : autoNavStep s = some s') : NoReverse s' := by
  unfold autoNavStep at hs
  split at hs
  · exact autoNavigateToApple_noReverse s s' h hs
  · simp only [Option.some.injEq] at hs; subst hs; exact h

theorem commit_noReverse (s : State) : NoReverse (commit s) := by
  simp only [NoReverse, commit]
  cases s.nextDirection <;> simp [Direction.opposite]

theorem opposite_ne (d : Direction) : d ≠ d.opposite := by
  cases d <;> simp [Direction.opposite]

/-- The direction a tick commits. -/
theorem update_direction (s s' : State) (rnd : List Sample) (h : update s rnd = some s') :
    s'.direction = if s.gameState = GameState.PLAYING then s.nextDirection else s.direction := by
  rcases update_cases s rnd with ⟨hn, hu⟩ | ⟨hp, -, hu⟩ | ⟨hp, -, hu⟩ | ⟨hp, x, -, -, -, -, -, hu⟩
    | ⟨hp, x, -, -, -, -, -, hu⟩
  · rw [hu, Option.some.injEq] at h; subst h; rw [if_neg hn]
  · rcases hu with hu | hu
    · rw [hu] at h; simp at h
    · rw [hu, Option.some.injEq] at h; subst h; rw [if_pos hp]; rfl
  · rw [hu, Option.some.injEq] at h; subst h
    rw [if_pos hp, (gameOver_frame _).2.2.2.2.2.1]; rfl
  · rw [hu] at h
    rw [autoNavStep_frame _ _ h, if_pos hp]; rfl
  · rw [hu, Option.bind_eq_some] at h
    obtain ⟨s1, h1, h2⟩ := h
    rw [autoNavStep_frame _ _ h2, if_pos hp]
    simp only
    rw [(eatFood_basic _ _ _ h1).2.2.2.1]; rfl

theorem update_noReverse (s s' : State) (rnd : List Sample) (hi : NoReverse s)
    (h : update s rnd = some s') : NoReverse s' := by
  rcases update_cases s rnd with ⟨-, hu⟩ | ⟨-, -, hu⟩ | ⟨-, -, hu⟩ | ⟨-, x, -, -, -, -, -, hu⟩
    | ⟨-, x, -, -, -, -, -, hu⟩
  · rw [hu, Option.some.injEq] at h; subst h; exact hi
  · rcases hu with hu | hu
    · rw [hu] at h; simp at h
    · rw [hu, Option.some.injEq] at h; subst h; exact commit_noReverse s
  · rw [hu, Option.some.injEq] at h; subst h
    have hg := gameOver_frame (commit s)
    have hc := commit_noReverse s
    simp only [NoReverse] at hc ⊢
    rw [hg.2.2.2.2.2.1, hg.2.2.2.2.2.2.1]; exact hc
  · rw [hu] at h
    refine autoNavStep_noReverse _ _ ?_ h
    have hc := commit_noReverse s
    simpa only [NoReverse, commit] using hc
  · rw [hu, Option.bind_eq_some] at h
    obtain ⟨s1, h1, h2⟩ := h
    refine autoNavStep_noReverse _ _ ?_ h2
    have hb := eatFood_basic _ _ _ h1
    have hc := commit_noReverse s
    simp only [NoReverse, commit] at hc ⊢
    rw [hb.2.2.2.1, hb.2.2.2.2.1]; exact hc

theorem newHead_inGrid_cons (snake : List Pos) (h : Pos) (hw : WellFormed snake)
    (hin : inGrid h) (hfree : h ∉ snake) :
    WellFormed (h :: snake) ∧ WellFormed (h :: snake.dropLast) := by
  obtain ⟨-, hg, hd⟩ := hw
  refine ⟨⟨by simp, ?_, List.nodup_cons.mpr ⟨hfree, hd⟩⟩, ⟨by simp, ?_, ?_⟩⟩
  · intro p hp
    rcases List.mem_cons.mp hp with rfl | hp
    · exact hin
    · exact hg p hp
  · intro p hp
    rcases List.mem_cons.mp hp with rfl | hp
    · exact hin
    · exact hg p (List.mem_of_mem_dropLast hp)
  · exact List.nodup_cons.mpr
      ⟨fun hm => hfree (List.mem_of_mem_dropLast hm), hd.sublist (List.dropLast_sublist _)⟩

theorem update_wellFormed (s s' : State) (rnd : List Sample) (hw : WellFormed s.snake)
    (h : update s rnd = some s') : WellFormed s'.snake := by
  rcases update_cases s rnd with ⟨-, hu⟩ | ⟨-, -, hu⟩ | ⟨-, -, hu⟩
    | ⟨-, x, -, hin, hfree, -, -, hu⟩ | ⟨-, x, -, hin, hfree, -, -, hu⟩
  · rw [hu, Option.some.injEq] at h; subst h; exact hw
  · rcases hu with hu | hu
    · rw [hu] at h; simp at h
    · rw [hu, Option.some.injEq] at h; subst h; exact hw
  · rw [hu, Option.some.injEq] at h; subst h
    rw [(gameOver_frame _).2.1]; exact hw
  · rw [hu] at h
    rw [autoNavStep_frame _ _ h]
    exact (newHead_inGrid_cons s.snake x hw hin hfree).2
  · rw [hu, Option.bind_eq_some] at h
    obtain ⟨s1, h1, h2⟩ := h
    rw [autoNavStep_frame _ _ h2]
    simp only
    rw [(eatFood_basic _ _ _ h1).2.1]
    exact (newHead_inGrid_cons s.snake x hw hin hfree).1

theorem update_foodFree (s s' : State) (rnd : List Sample) (hf : FoodFree s)
    (h : update s rnd = some s') : FoodFree s' := by
  rcases update_cases s rnd with ⟨-, hu⟩ | ⟨-, -, hu⟩ | ⟨-, -, hu⟩
    | ⟨-, x, -, -, -, hfood, -, hu⟩ | ⟨-, x, -, -, -, -, -, hu⟩
  · rw [hu, Option.some.injEq] at h; subst h; exact hf
  · rcases hu with hu | hu
    · rw [hu] at h; simp at h
    · rw [hu, Option.some.injEq] at h; subst h; exact hf
  · rw [hu, Option.some.injEq] at h; subst h
    have hg := gameOver_frame (commit s)
    simp only [FoodFree]
    rw [hg.2.1, hg.2.2.1]; exact hf
  · rw [hu] at h
    rw [autoNavStep_frame _ _ h]
    refine ⟨hf.1, ?_⟩
    intro hm
    rcases List.mem_cons.mp hm with heq | hm
    · exact hfood heq.symm
    · exact hf.2 (List.mem_of_mem_dropLast hm)
  · rw [hu, Option.bind_eq_some] at h
    obtain ⟨s1, h1, h2⟩ := h
    have hb := eatFood_basic _ _ _ h1
    have hg := generateFood_spec _ _ _ hb.1
    rw [autoNavStep_frame _ _ h2]
    simp only [FoodFree]
    rw [hb.2.1]
    exact hg

theorem update_scoreInv (s s' : State) (rnd : List Sample) (hi : ScoreInv s)
    (h : update s rnd = some s') : ScoreInv s' := by
  rcases update_cases s rnd with ⟨-, hu⟩ | ⟨-, -, hu⟩ | ⟨-, -, hu⟩
    | ⟨-, x, -, -, -, -, hne, hu⟩ | ⟨-, x, -, -, -, -, -, hu⟩
  · rw [hu, Option.some.injEq] at h; subst h; exact hi
  · rcases hu with hu | hu
    · rw [hu] at h; simp at h
    · rw [hu, Option.some.injEq] at h; subst h; exact hi
  · rw [hu, Option.some.injEq] at h; subst h
    have hg := gameOver_frame (commit s)
    simp only [ScoreInv]
    rw [hg.2.1, hg.2.2.2.1]; exact hi
  · rw [hu] at h
    rw [autoNavStep_frame _ _ h]
    have hl : 0 < s.snake.length := List.length_pos.mpr hne
    obtain ⟨h0, h1⟩ := hi
    simp only [ScoreInv, commit, List.length_cons, List.length_dropLast]
    refine ⟨h0, ?_⟩
    rw [h1]
    congr 2
    omega
  · rw [hu, Option.bind_eq_some] at h
    obtain ⟨s1, h1, h2⟩ := h
    have hb := eatFood_basic _ _ _ h1
    obtain ⟨h0, h3⟩ := hi
    rw [autoNavStep_frame _ _ h2]
    simp only [ScoreInv]
    rw [hb.2.1, hb.2.2.1]
    simp only [commit, List.length_cons, foodPoints] at h3 ⊢
    constructor
    · omega
    · push_cast; omega

theorem update_speedInv (s s' : State) (rnd : List Sample) (hsc : ScoreInv s)
    (hi : SpeedInv s) (h : update s rnd = some s') : SpeedInv s' := by
  rcases update_cases s rnd with ⟨-, hu⟩ | ⟨-, -, hu⟩ | ⟨-, -, hu⟩
    | ⟨-, x, -, -, -, -, hne, hu⟩ | ⟨-, x, -, -, -, -, -, hu⟩
  · rw [hu, Option.some.injEq] at h; subst h; exact hi
  · rcases hu with hu | hu
    · rw [hu] at h; simp at h
    · rw [hu, Option.some.injEq] at h; subst h; exact hi
  · rw [hu, Option.some.injEq] at h; subst h
    have hg := gameOver_frame (commit s)
    simp only [SpeedInv]
    rw [hg.2.2.2.1, hg.2.2.2.2.1]; exact hi
  · rw [hu] at h
    rw [autoNavStep_frame _ _ h]
    exact hi
  · rw [hu, Option.bind_eq_some] at h
    obtain ⟨s1, h1, h2⟩ := h
    have hb := eatFood_basic _ _ _ h1
    have hsp := eatFood_speed _ _ _ h1
    obtain ⟨h0, h3⟩ := hsc
    rw [autoNavStep_frame _ _ h2]
    simp only [SpeedInv] at hi ⊢
    rw [hb.2.2.1, hsp]
    simp only [commit, foodPoints, initialSpeed, speedIncrement] at h3 hi ⊢
    rw [Int.tmod_eq_emod (by omega) (by norm_num)]
    split_ifs with hc
    · omega
    · omega

theorem resetSnake_wellFormed : WellFormed resetSnake := by
  refine ⟨by simp [resetSnake], ?_, by decide⟩
  intro p hp
  simp only [resetSnake, List.mem_cons, List.mem_singleton, List.not_mem_nil, or_false] at hp
  rcases hp with rfl | rfl | rfl <;> decide

theorem startGame_inv (s0 s : State) (rnd : List Sample) (h : startGame s0 rnd = some s) :
    Inv s ∧ s.score = 0 ∧ s.gameSpeed = initialSpeed ∧ s.snake = resetSnake
      ∧ s.gameState = GameState.PLAYING := by
  unfold startGame at h
  simp only at h
  split at h
  · simp at h
  · rename_i f hf
    simp only [Option.some.injEq] at h
    subst h
    have hg := generateFood_spec _ _ _ hf
    refine ⟨⟨?_, hg, ?_, ?_, ?_⟩, rfl, rfl, rfl, rfl⟩
    · simp [NoReverse, Direction.opposite]
    · exact resetSnake_wellFormed
    · simp [ScoreInv, resetSnake, foodPoints]
    · simp [SpeedInv, initialSpeed, speedIncrement]

theorem update_inv (s s' : State) (rnd : List Sample) (hi : Inv s)
    (h : update s rnd = some s') : Inv s' :=
  ⟨update_noReverse s s' rnd hi.1 h, update_foodFree s s' rnd hi.2.1 h,
    update_wellFormed s s' rnd hi.2.2.1 h, update_scoreInv s s' rnd hi.2.2.2.1 h,
    update_speedInv s s' rnd hi.2.2.2.1 hi.2.2.2.2 h⟩

theorem step_inv (s s' : State) (e : Event) (hi : Inv s) (h : step s e = some s') :
    Inv s' := by
  cases e with
  | tick rnd => exact update_inv s s' rnd hi h
  | keydown e =>
    simp only [step, Option.some.injEq] at h
    subst h
    have h1 := handleKeyPress_board s e
    have h2 := handleAK47Activation_board (handleKeyPress s e) e
    have hn := handleKeyPress_noReverse s e hi.1
    have i1 := sameBoard_inv s _ h1 hn hi
    refine sameBoard_inv _ _ h2.1 ?_ i1
    simp only [NoReverse] at hn ⊢
    rw [h2.2, h2.1.2.2.2.2]; exact hn
  | directionInput dir =>
    simp only [step, Option.some.injEq] at h
    subst h
    exact sameBoard_inv s _ (handleDirectionInput_board s dir)
      (handleDirectionInput_noReverse s dir hi.1) hi
  | dblclick =>
    simp only [step, Option.some.injEq] at h
    subst h
    have h2 := activateAK47_board s
    refine sameBoard_inv s _ h2.1 ?_ hi
    have hn := hi.1
    simp only [NoReverse] at hn ⊢
    rw [h2.2, h2.1.2.2.2.2]; exact hn
  | cooldownTick =>
    simp only [step, Option.some.injEq] at h
    subst h
    have h2 := cooldownTimer_board s
    refine sameBoard_inv s _ h2.1 ?_ hi
    have hn := hi.1
    simp only [NoReverse] at hn ⊢
    rw [h2.2, h2.1.2.2.2.2]; exact hn
  | startBtn rnd => exact (startGame_inv s s' rnd h).1
  | restartBtn rnd => exact (startGame_inv s s' rnd h).1

theorem reachable_inv (s : State) (h : Reachable s) : Inv s := by
  induction h with
  | start hs rnd0 rnd s0 s _ h => exact (startGame_inv s0 s rnd h).1
  | step s e s' _ h ih => exact step_inv s s' e ih h

/-! ## What a tick does to the score and to the power-up -/

theorem eatFood_ak47 (s s' : State) (rnd : List Sample) (h : eatFood s rnd = some s') :
    (s.ak47State = AK47State.LOCKED → s.autoNavActive = false →
      (s.score + foodPoints ≥ AK47_UNLOCK_SCORE →
        s'.ak47State = AK47State.UNLOCKED ∧ s'.ak47AmmoRemaining = AK47_SHOTS_LIMIT)
      ∧ (s.score + foodPoints < AK47_UNLOCK_SCORE →
        s'.ak47State = AK47State.LOCKED ∧ s'.ak47AmmoRemaining = s.ak47AmmoRemaining))
    ∧ (s.ak47State = AK47State.UNLOCKED → s.autoNavActive = true → 1 ≤ s.ak47AmmoRemaining →
      s'.ak47AmmoRemaining = s.ak47AmmoRemaining - 1 ∧ s'.autoNavActive = false
      ∧ (s.ak47AmmoRemaining - 1 = 0 →
        s'.ak47State = AK47State.COOLDOWN ∧ s'.ak47CooldownRemaining = AK47_COOLDOWN)
      ∧ (s.ak47AmmoRemaining - 1 > 0 → s'.ak47State = AK47State.UNLOCKED)) := by
  unfold eatFood at h
  simp only at h
  split at h
  · simp at h
  · simp only [Option.some.injEq] at h
    subst h
    simp only [createParticles, deactivateAK47]
    refine ⟨fun hl hn => ⟨fun hsc => ?_, fun hsc => ?_⟩, fun hu hn ha => ?_⟩
    · have hsc2 : ¬ (s.score + foodPoints < AK47_UNLOCK_SCORE) := by omega
      split_ifs <;> simp_all
    · have hsc2 : ¬ (s.score + foodPoints ≥ AK47_UNLOCK_SCORE) := by omega
      split_ifs <;> simp_all
    · have ha2 : s.ak47AmmoRemaining > 0 := by omega
      split_ifs <;> simp_all

/-- What a tick does to the score, the power-up and the speed: nothing unless
the snake eats, and on an eating tick what `eatFood` does. -/
theorem update_effect (s s' : State) (rnd : List Sample) (h : update s rnd = some s') :
    (¬ eatsFood s ∧ s'.score = s.score ∧ s'.gameSpeed = s.gameSpeed
        ∧ s'.ak47State = s.ak47State ∧ s'.ak47AmmoRemaining = s.ak47AmmoRemaining
        ∧ s'.autoNavActive = s.autoNavActive)
    ∨ (eatsFood s ∧ ∃ x s1, newHead s = some x
        ∧ eatFood { commit s with snake := x :: s.snake } rnd = some s1
        ∧ s' = { s1 with nextDirection := s'.nextDirection }) := by
  have hno : ∀ x, newHead s = some x → (¬ inGrid x ∨ x ∈ s.snake ∨ x ≠ s.food) →
      ¬ eatsFood s := by
    rintro x hx hc ⟨-, y, hy, hin, hfree, hfood⟩
    rw [hx, Option.some.injEq] at hy
    subst hy
    rcases hc with hc | hc | hc
    · exact hc hin
    · exact hfree hc
    · exact hc hfood
  rcases update_cases s rnd with ⟨hn, hu⟩ | ⟨-, hnil, hu⟩ | ⟨-, ⟨x, hx, hc⟩, hu⟩
    | ⟨-, x, hx, -, -, hfood, -, hu⟩ | ⟨hp, x, hx, hin, hfree, hfood, -, hu⟩
  · rw [hu, Option.some.injEq] at h; subst h
    exact Or.inl ⟨fun he => hn he.1, rfl, rfl, rfl, rfl, rfl⟩
  · left
    have hne : ¬ eatsFood s := by
      rintro ⟨-, y, hy, -⟩
      simp [newHead, hnil] at hy
    rcases hu with hu | hu
    · rw [hu] at h; simp at h
    · rw [hu, Option.some.injEq] at h; subst h
      exact ⟨hne, rfl, rfl, rfl, rfl, rfl⟩
  · rw [hu, Option.some.injEq] at h; subst h
    have hg := gameOver_frame (commit s)
    refine Or.inl ⟨hno x hx ?_, hg.2.2.2.1, hg.2.2.2.2.1, hg.2.2.2.2.2.2.2.1,
      hg.2.2.2.2.2.2.2.2.1, hg.2.2.2.2.2.2.2.2.2⟩
    rcases hc with hc | hc
    · exact Or.inl hc
    · exact Or.inr (Or.inl hc)
  · rw [hu] at h
    rw [autoNavStep_frame _ _ h]
    exact Or.inl ⟨hno x hx (Or.inr (Or.inr hfood)), rfl, rfl, rfl, rfl, rfl⟩
  · rw [hu, Option.bind_eq_some] at h
    obtain ⟨s1, h1, h2⟩ := h
    exact Or.inr ⟨⟨hp, x, hx, hin, hfree, hfood⟩, x, s1, hx, h1, autoNavStep_frame _ _ h2⟩

theorem update_returns (s : State) (rnd : List Sample)
    (hne : s.snake = [] → s.autoNavActive = false) (hloop : foodLoopEnds s rnd) :
    ∃ s', update s rnd = some s' := by
  rcases update_cases s rnd with ⟨-, hu⟩ | ⟨hp, hnil, -⟩ | ⟨-, -, hu⟩
    | ⟨-, x, -, -, -, -, -, hu⟩ | ⟨hp, x, hx, hin, hfree, hfood, -, hu⟩
  · exact ⟨_, hu⟩
  · refine ⟨commit s, ?_⟩
    have ha := hne hnil
    cases s
    simp only at hp hnil ha
    subst hp hnil ha
    simp [update, commit]
  · exact ⟨_, hu⟩
  · rw [hu]
    exact autoNavStep_returns _ (by simp)
  · rw [hu]
    obtain ⟨f, hf⟩ := generateFood_returns (x :: s.snake) rnd
      (hloop x ⟨hp, x, hx, hin, hfree, hfood⟩ hx)
    obtain ⟨s1, h1⟩ := eatFood_returns { commit s with snake := x :: s.snake } rnd f hf
    obtain ⟨s2, h2⟩ := autoNavStep_returns s1 (by rw [(eatFood_basic _ _ _ h1).2.1]; simp)
    exact ⟨s2, by rw [h1]; exact h2⟩

theorem reachable_run (s s' : State) (es : List Event) (hr : Reachable s)
    (h : run s es = some s') : Reachable s' := by
  induction es generalizing s with
  | nil => simp only [run, Option.some.injEq] at h; subst h; exact hr
  | cons e es ih =>
    simp only [run, Option.bind_eq_some] at h
    obtain ⟨s1, h1, h2⟩ := h
    exact ih s1 (Reachable.step s e s1 hr h1) h2

/-! ## The example states are reachable -/

theorem started_reachable : Reachable started :=
  Reachable.start 0 [(3, 3)] [(11, 10)] loaded started (by decide) (by decide)

theorem fiveApples_reachable : Reachable fiveApples :=
  reachable_run started fiveApples fiveTicks started_reachable (by decide)

theorem autoNavOn_reachable : Reachable autoNavOn :=
  Reachable.step fiveApples (Event.keydown keyF) autoNavOn fiveApples_reachable (by decide)

theorem runningAway_reachable : Reachable runningAway :=
  reachable_run started runningAway runAwayEvents started_reachable (by decide)

/-! ## The `if` chain of the auto-navigation -/

theorem autoNavigateToApple_eq (s : State) (head : Pos) (t : List Pos)
    (hplay : s.gameState = GameState.PLAYING) (hnav : s.autoNavActive = true)
    (hs : s.snake = head :: t) :
    autoNavigateToApple s = some { s with nextDirection :=
      (autoNavChoice (s.food.x - head.x) (s.food.y - head.y) s.direction s.nextDirection) } := by
  cases s
  simp only at hplay hnav hs
  subst hplay hnav hs
  simp only [autoNavigateToApple, autoNavChoice]
  split_ifs <;> simp_all

theorem autoNavChoice_spec (dx dy : Int) (direction nextDirection p : Direction)
    (hp : (if dx.natAbs > dy.natAbs then
            (if dx > 0 then some Direction.RIGHT else some Direction.LEFT)
          else if dy.natAbs > dx.natAbs then
            (if dy > 0 then some Direction.DOWN else some Direction.UP)
          else none) = some p) :
    (p ≠ direction.opposite → autoNavChoice dx dy direction nextDirection = p)
    ∧ (p = direction.opposite →
        (∀ d, (if dx.natAbs > dy.natAbs then
                (if dy > 0 then some Direction.DOWN
                  else if dy < 0 then some Direction.UP else none)
              else if dy.natAbs > dx.natAbs then
                (if dx > 0 then some Direction.RIGHT
                  else if dx < 0 then some Direction.LEFT else none)
              else none) = some d →
          autoNavChoice dx dy direction nextDirection = d ∧ d.horizontal ≠ p.horizontal)
        ∧ ((if dx.natAbs > dy.natAbs then
                (if dy > 0 then some Direction.DOWN
                  else if dy < 0 then some Direction.UP else none)
              else if dy.natAbs > dx.natAbs then
                (if dx > 0 then some Direction.RIGHT
                  else if dx < 0 then some Direction.LEFT else none)
              else none) = none →
          autoNavChoice dx dy direction nextDirection = nextDirection)) := by
  by_cases h1 : dx.natAbs > dy.natAbs
  · simp only [h1, if_true] at hp ⊢
    by_cases hx : dx > 0
    · have hx2 : ¬ dx < 0 := by omega
      simp only [hx, if_true, Option.some.injEq] at hp
      subst hp
      cases direction
      all_goals simp [autoNavChoice, h1, hx, hx2, Direction.opposite, Direction.horizontal]
      all_goals (split_ifs <;> simp_all)
    · have hx2 : dx < 0 := by omega
      simp only [hx, if_false, Option.some.injEq] at hp
      subst hp
      cases direction
      all_goals simp [autoNavChoice, h1, hx, hx2, Direction.opposite, Direction.horizontal]
      all_goals (split_ifs <;> simp_all)
  · simp only [h1, if_false] at hp ⊢
    by_cases h2 : dy.natAbs > dx.natAbs
    · simp only [h2, if_true] at hp ⊢
      by_cases hy : dy > 0
      · have hy2 : ¬ dy < 0 := by omega
        simp only [hy, if_true, Option.some.injEq] at hp
        subst hp
        cases direction
        all_goals simp [autoNavChoice, h1, hy, hy2, Direction.opposite, Direction.horizontal]
        all_goals (split_ifs <;> simp_all)
      · have hy2 : dy < 0 := by omega
        simp only [hy, if_false, Option.some.injEq] at hp
        subst hp
        cases direction
        all_goals simp [autoNavChoice, h1, hy, hy2, Direction.opposite, Direction.horizontal]
        all_goals (split_ifs <;> simp_all)
    · simp [h2] at hp

/-! ## The claims -/

/-- C3 (`update`, `handleKeyPress`, `handleDirectionInput`, `autoNavigateToApple`):
in every state reachable from `startGame()` the pending direction is not the
exact opposite of the committed direction, and so the direction a tick commits
is not the exact opposite of the committed direction it starts from. -/
theorem no_reversal (s : State) (hr : Reachable s) :
    s.nextDirection ≠ s.direction.opposite
    ∧ ∀ rnd s', update s rnd = some s' → s'.direction ≠ s.direction.opposite := by
  have hi := (reachable_inv s hr).1
  refine ⟨hi, fun rnd s' h => ?_⟩
  rw [update_direction s s' rnd h]
  split_ifs
  · exact hi
  · exact opposite_ne s.direction

/-- Witness for C3: the started game after the key `ArrowUp` (pending UP,
committed RIGHT). -/
theorem no_reversal_witness :
    (handleKeyPress started keyArrowUp).nextDirection = Direction.UP
    ∧ (handleKeyPress started keyArrowUp).nextDirection
        ≠ (handleKeyPress started keyArrowUp).direction.opposite
    ∧ ∀ rnd s', update (handleKeyPress started keyArrowUp) rnd = some s' →
        s'.direction ≠ (handleKeyPress started keyArrowUp).direction.opposite :=
  ⟨by decide, no_reversal (handleKeyPress started keyArrowUp)
    (Reachable.step started (Event.keydown keyArrowUp) _ started_reachable (by decide))⟩

/-- C4 (`generateFood`, `update`, `startGame`): in every state reachable from
`startGame()` the food is a grid cell that is on no snake segment, it still is
after every tick (the eating tick, which draws a new food, included), the tick
returns as soon as the draws let the loop of `generateFood` end, and whatever
`generateFood` returns is a grid cell off the snake it was given. -/
theorem food_never_on_snake (s : State) (hr : Reachable s) :
    (inGrid s.food ∧ s.food ∉ s.snake)
    ∧ (∀ rnd s', update s rnd = some s' → inGrid s'.food ∧ s'.food ∉ s'.snake)
    ∧ (∀ rnd, foodLoopEnds s rnd → ∃ s', update s rnd = some s')
    ∧ (∀ snake rnd f, generateFood snake rnd = some f → inGrid f ∧ f ∉ snake)
    ∧ (∀ snake rnd, (∃ c ∈ rnd, (⟨(c.1.val : Int), (c.2.val : Int)⟩ : Pos) ∉ snake) →
        ∃ f, generateFood snake rnd = some f) := by
  have hi := reachable_inv s hr
  refine ⟨hi.2.1, fun rnd s' h => update_foodFree s s' rnd hi.2.1 h, fun rnd hl => ?_,
    generateFood_spec, generateFood_returns⟩
  exact update_returns s rnd (fun hnil => absurd hnil hi.2.2.1.1) hl

/-- Witness for C4: the started game eats the food at `(11,10)`; the draws
`(11,10)` and `(10,10)` are rejected and the new food `(12,10)` is off the snake. -/
theorem food_never_on_snake_witness :
    ∃ s', update started [(11, 10), (10, 10), (12, 10)] = some s'
      ∧ s'.food = ⟨12, 10⟩ ∧ s'.food ∉ s'.snake := by
  have h := food_never_on_snake started started_reachable
  obtain ⟨s', hs'⟩ := h.2.2.1 [(11, 10), (10, 10), (12, 10)]
    (fun x _ hx => ⟨(12, 10), by simp, by
      have : x = ⟨11, 10⟩ := by
        have h2 : newHead started = some ⟨11, 10⟩ := by decide
        rw [h2] at hx; exact (Option.some.inj hx).symm
      subst this; decide⟩)
  refine ⟨s', hs', ?_, (h.2.1 _ s' hs').2⟩
  have : update started [(11, 10), (10, 10), (12, 10)] = some
      { (playing [⟨11, 10⟩, ⟨10, 10⟩, ⟨9, 10⟩, ⟨8, 10⟩] Direction.RIGHT ⟨12, 10⟩ 10) with
        particleBursts := [⟨12, 10⟩] } := by decide
  rw [this] at hs'
  rw [← Option.some.inj hs']
  rfl

/-- C5 (`resetSnake`, `startGame`, `update`): the snake of `resetSnake` and of
`startGame` is non-empty, in the grid and without repeated segment, and a tick
from a state whose snake is so returns a state whose snake is so, whatever the
pending direction and the food are. -/
theorem snake_wellFormed_preserved :
    WellFormed resetSnake
    ∧ (∀ s0 rnd s, startGame s0 rnd = some s → WellFormed s.snake)
    ∧ (∀ s rnd s', WellFormed s.snake → update s rnd = some s' → WellFormed s'.snake)
    ∧ (∀ s rnd, WellFormed s.snake → foodLoopEnds s rnd → ∃ s', update s rnd = some s') := by
  refine ⟨resetSnake_wellFormed, fun s0 rnd s h => ?_, fun s rnd s' hw h =>
    update_wellFormed s s' rnd hw h, fun s rnd hw hl => ?_⟩
  · exact (startGame_inv s0 s rnd h).1.2.2.1
  · exact update_returns s rnd (fun hnil => absurd hnil hw.1) hl

/-- Witness for C5: the eating tick of the first example of the spec. -/
theorem snake_wellFormed_preserved_witness :
    WellFormed aboutToEat.snake ∧
      ∃ s', update aboutToEat [(5, 5)] = some s' ∧ WellFormed s'.snake := by
  have h := snake_wellFormed_preserved
  have hw : WellFormed aboutToEat.snake := h.1
  have hl : foodLoopEnds aboutToEat [(5, 5)] := by
    intro x _ hx
    have h2 : newHead aboutToEat = some ⟨11, 10⟩ := by decide
    rw [h2] at hx
    rw [← Option.some.inj hx]
    exact ⟨(5, 5), by simp, by decide⟩
  obtain ⟨s', hs'⟩ := h.2.2.2 aboutToEat [(5, 5)] hw hl
  exact ⟨hw, s', hs', h.2.2.1 aboutToEat [(5, 5)] s' hw hs'⟩

/-- C6 (`update`, `startGame`): in every state reachable from `startGame()` the
score is a non-negative multiple of `foodPoints`, namely `10 * (snake.length - 3)`;
an event leaves the score alone unless it is a tick that eats (plus 10) or a
(re)start (score 0, three segments). -/
theorem score_counts_growth (s : State) (hr : Reachable s) :
    (0 ≤ s.score ∧ s.score % foodPoints = 0
      ∧ s.score = foodPoints * ((s.snake.length : Int) - 3))
    ∧ (∀ e s', step s e = some s' →
        s'.score = s.score
        ∨ (∃ rnd, e = Event.tick rnd ∧ eatsFood s ∧ s'.score = s.score + foodPoints)
        ∨ ((∃ rnd, e = Event.startBtn rnd ∨ e = Event.restartBtn rnd)
            ∧ s'.score = 0 ∧ s'.snake.length = 3))
    ∧ (∀ rnd s', update s rnd = some s' → eatsFood s → s'.score = s.score + foodPoints) := by
  have hi := (reachable_inv s hr).2.2.2.1
  refine ⟨⟨hi.1, ?_, hi.2⟩, ?_, ?_⟩
  · rw [hi.2]; simp [foodPoints]
  · intro e s' h
    cases e with
    | tick rnd =>
      rcases update_effect s s' rnd h with ⟨-, h1, -⟩ | ⟨he, x, s1, -, h1, h2⟩
      · exact Or.inl h1
      · refine Or.inr (Or.inl ⟨rnd, rfl, he, ?_⟩)
        rw [h2]; exact (eatFood_basic _ _ _ h1).2.2.1
    | keydown k =>
      simp only [step, Option.some.injEq] at h
      subst h
      left
      rw [(handleAK47Activation_board _ k).1.2.2.1, (handleKeyPress_board s k).2.2.1]
    | directionInput dir =>
      simp only [step, Option.some.injEq] at h
      subst h
      exact Or.inl (handleDirectionInput_board s dir).2.2.1
    | dblclick =>
      simp only [step, Option.some.injEq] at h
      subst h
      exact Or.inl (activateAK47_board s).1.2.2.1
    | cooldownTick =>
      simp only [step, Option.some.injEq] at h
      subst h
      exact Or.inl (cooldownTimer_board s).1.2.2.1
    | startBtn rnd =>
      have hs := startGame_inv s s' rnd h
      exact Or.inr (Or.inr ⟨⟨rnd, Or.inl rfl⟩, hs.2.1, by rw [hs.2.2.2.1]; rfl⟩)
    | restartBtn rnd =>
      have hs := startGame_inv s s' rnd h
      exact Or.inr (Or.inr ⟨⟨rnd, Or.inr rfl⟩, hs.2.1, by rw [hs.2.2.2.1]; rfl⟩)
  · intro rnd s' h he
    rcases update_effect s s' rnd h with ⟨hne, -⟩ | ⟨-, x, s1, -, h1, h2⟩
    · exact absurd he hne
    · rw [h2]; exact (eatFood_basic _ _ _ h1).2.2.1

/-- Witness for C6: after five apples the score is 50 with 8 segments. -/
theorem score_counts_growth_witness :
    fiveApples.score = 50 ∧ fiveApples.snake.length = 8
      ∧ fiveApples.score = foodPoints * ((fiveApples.snake.length : Int) - 3) :=
  ⟨rfl, rfl, (score_counts_growth fiveApples fiveApples_reachable).1.2.2⟩

/-- C7 (`update` lines 278-282, `startGame`): in every state reachable from
`startGame()`, `gameSpeed = max(50, 150 - 5 * floor(score / 50))`, never below
50; a tick lowers it by `speedIncrement` exactly when it eats, brings the score
to a multiple of 50 and finds the speed above 50, and any other event leaves it
alone or (a restart) resets score and speed together. -/
theorem speed_ramp (s : State) (hr : Reachable s) :
    s.gameSpeed = max 50 (initialSpeed - speedIncrement * (s.score / 50))
    ∧ 50 ≤ s.gameSpeed
    ∧ (∀ rnd s', update s rnd = some s' →
        (eatsFood s ∧ (s.score + foodPoints) % 50 = 0 ∧ s.gameSpeed > 50 →
          s'.score = s.score + foodPoints ∧ s'.gameSpeed = s.gameSpeed - speedIncrement)
        ∧ (¬ (eatsFood s ∧ (s.score + foodPoints) % 50 = 0 ∧ s.gameSpeed > 50) →
          s'.gameSpeed = s.gameSpeed))
    ∧ (∀ e s', step s e = some s' → (∀ rnd, e ≠ Event.tick rnd) →
        s'.gameSpeed = s.gameSpeed ∨ (s'.score = 0 ∧ s'.gameSpeed = initialSpeed)) := by
  have hi := reachable_inv s hr
  have hsp := hi.2.2.2.2
  have hsc := hi.2.2.2.1
  simp only [SpeedInv] at hsp
  refine ⟨hsp, by rw [hsp]; exact le_max_left _ _, fun rnd s' h => ?_, fun e s' h hne => ?_⟩
  · rcases update_effect s s' rnd h with ⟨hne, -, h1, -⟩ | ⟨he, x, s1, -, h1, h2⟩
    · exact ⟨fun hc => absurd hc.1 hne, fun _ => h1⟩
    · have hspd := eatFood_speed _ _ _ h1
      have hb := (eatFood_basic _ _ _ h1).2.2.1
      have h0 : 0 ≤ s.score + foodPoints := by have := hsc.1; simp only [foodPoints]; omega
      simp only [commit] at hspd hb
      rw [Int.tmod_eq_emod h0 (by norm_num)] at hspd
      constructor
      · intro hc
        rw [h2]
        simp only
        rw [hspd, if_pos hc.2]
        exact ⟨hb, rfl⟩
      · intro hc
        rw [h2]
        simp only
        rw [hspd, if_neg (fun h' => hc ⟨he, h'⟩)]
  · cases e with
    | tick rnd => exact absurd rfl (hne rnd)
    | keydown k =>
      simp only [step, Option.some.injEq] at h
      subst h
      left
      rw [(handleAK47Activation_board _ k).1.2.2.2.1, (handleKeyPress_board s k).2.2.2.1]
    | directionInput dir =>
      simp only [step, Option.some.injEq] at h
      subst h
      exact Or.inl (handleDirectionInput_board s dir).2.2.2.1
    | dblclick =>
      simp only [step, Option.some.injEq] at h
      subst h
      exact Or.inl (activateAK47_board s).1.2.2.2.1
    | cooldownTick =>
      simp only [step, Option.some.injEq] at h
      subst h
      exact Or.inl (cooldownTimer_board s).1.2.2.2.1
    | startBtn rnd =>
      have hs := startGame_inv s s' rnd h
      exact Or.inr ⟨hs.2.1, hs.2.2.1⟩
    | restartBtn rnd =>
      have hs := startGame_inv s s' rnd h
      exact Or.inr ⟨hs.2.1, hs.2.2.1⟩

/-- Witness for C7: score 0 gives 150, score 50 gives 145. -/
theorem speed_ramp_witness :
    (started.score = 0 ∧ started.gameSpeed = 150)
    ∧ (fiveApples.score = 50 ∧ fiveApples.gameSpeed = 145)
    ∧ fiveApples.gameSpeed = max 50 (initialSpeed - speedIncrement * (fiveApples.score / 50)) :=
  ⟨⟨rfl, rfl⟩, ⟨rfl, rfl⟩, (speed_ramp fiveApples fiveApples_reachable).1⟩

/-- C8 (`update` lines 259-265): on a tick that starts LOCKED with
auto-navigation inactive, if the snake eats and the new score is at least 50 the
power-up ends UNLOCKED with 5 shots; if the new score is below 50 or nothing is
eaten it stays LOCKED with the ammunition unchanged. -/
theorem ak47_unlock (s : State) (rnd : List Sample)
    (hlocked : s.ak47State = AK47State.LOCKED) (hnav : s.autoNavActive = false) :
    (∀ s', update s rnd = some s' →
      (eatsFood s ∧ s.score + foodPoints ≥ AK47_UNLOCK_SCORE →
        s'.score = s.score + foodPoints ∧ s'.ak47State = AK47State.UNLOCKED
          ∧ s'.ak47AmmoRemaining = AK47_SHOTS_LIMIT)
      ∧ (eatsFood s ∧ s.score + foodPoints < AK47_UNLOCK_SCORE ∨ ¬ eatsFood s →
        s'.ak47State = AK47State.LOCKED ∧ s'.ak47AmmoRemaining = s.ak47AmmoRemaining))
    ∧ (foodLoopEnds s rnd → ∃ s', update s rnd = some s') := by
  refine ⟨fun s' h => ?_, fun hl => update_returns s rnd (fun _ => hnav) hl⟩
  rcases update_effect s s' rnd h with ⟨hne, -, -, h1, h2, -⟩ | ⟨he, x, s1, -, h1, h2⟩
  · refine ⟨fun hc => absurd hc.1 hne, fun _ => ⟨by rw [h1, hlocked], h2⟩⟩
  · have hk := (eatFood_ak47 _ _ _ h1).1 hlocked hnav
    have hb := (eatFood_basic _ _ _ h1).2.2.1
    simp only [commit] at hk hb
    constructor
    · intro hc
      rw [h2]
      exact ⟨hb, hk.1 hc.2⟩
    · intro hc
      rw [h2]
      rcases hc with hc | hc
      · exact hk.2 hc.2
      · exact absurd he hc

theorem score40_eats : eatsFood score40 :=
  ⟨rfl, ⟨11, 10⟩, by decide, by decide, by decide, by decide⟩

/-- Witness for C8: score 40, LOCKED, food eaten: score 50, UNLOCKED, 5 shots. -/
theorem ak47_unlock_witness :
    ∃ s', update score40 [(5, 5)] = some s' ∧ s'.score = 50
      ∧ s'.ak47State = AK47State.UNLOCKED ∧ s'.ak47AmmoRemaining = 5 := by
  have h := ak47_unlock score40 [(5, 5)] rfl rfl
  have hl : foodLoopEnds score40 [(5, 5)] := by
    intro x _ hx
    have h2 : newHead score40 = some ⟨11, 10⟩ := by decide
    rw [h2] at hx
    rw [← Option.some.inj hx]
    exact ⟨(5, 5), by simp, by decide⟩
  obtain ⟨s', hs'⟩ := h.2 hl
  exact ⟨s', hs', (h.1 s' hs').1 ⟨score40_eats, by decide⟩⟩

/-- C9 (`update` lines 267-276, `deactivateAK47`): on an eating tick that
starts UNLOCKED with auto-navigation active and `n >= 1` shots, the tick ends
with `n - 1` shots and auto-navigation off, in COOLDOWN with 300 remaining when
`n - 1 = 0` and still UNLOCKED when `n - 1 > 0`; a tick that eats nothing changes
none of `ak47State`, `ak47AmmoRemaining`, `autoNavActive`. -/
theorem ak47_consume (s : State) (rnd : List Sample) :
    (s.ak47State = AK47State.UNLOCKED → s.autoNavActive = true → 1 ≤ s.ak47AmmoRemaining →
      eatsFood s →
      (∀ s', update s rnd = some s' →
        s'.ak47AmmoRemaining = s.ak47AmmoRemaining - 1 ∧ s'.autoNavActive = false
        ∧ (s.ak47AmmoRemaining - 1 = 0 →
          s'.ak47State = AK47State.COOLDOWN ∧ s'.ak47CooldownRemaining = AK47_COOLDOWN)
        ∧ (s.ak47AmmoRemaining - 1 > 0 → s'.ak47State = AK47State.UNLOCKED))
      ∧ (foodLoopEnds s rnd → ∃ s', update s rnd = some s'))
    ∧ (∀ s', update s rnd = some s' → ¬ eatsFood s →
        s'.ak47State = s.ak47State ∧ s'.ak47AmmoRemaining = s.ak47AmmoRemaining
          ∧ s'.autoNavActive = s.autoNavActive) := by
  constructor
  · intro hu hnav hammo he
    constructor
    · intro s' h
      rcases update_effect s s' rnd h with ⟨hne, -⟩ | ⟨-, x, s1, -, h1, h2⟩
      · exact absurd he hne
      · have hk := (eatFood_ak47 _ _ _ h1).2 hu hnav hammo
        simp only [commit] at hk
        rw [h2]
        exact hk
    · intro hl
      refine update_returns s rnd (fun hnil => ?_) hl
      obtain ⟨-, x, hx, -⟩ := he
      simp [newHead, hnil] at hx
  · intro s' h hne
    rcases update_effect s s' rnd h with ⟨-, -, -, h1, h2, h3⟩ | ⟨he, -⟩
    · exact ⟨h1, h2, h3⟩
    · exact absurd he hne

theorem lastShot_eats : eatsFood lastShot :=
  ⟨rfl, ⟨11, 10⟩, by decide, by decide, by decide, by decide⟩

/-- Witness for C9: active with 1 shot, food eaten: 0 shots, COOLDOWN, 300 remaining. -/
theorem ak47_consume_witness :
    ∃ s', update lastShot [(5, 5)] = some s' ∧ s'.ak47AmmoRemaining = 0
      ∧ s'.autoNavActive = false ∧ s'.ak47State = AK47State.COOLDOWN
      ∧ s'.ak47CooldownRemaining = 300 := by
  have h := (ak47_consume lastShot [(5, 5)]).1 rfl rfl (by decide) lastShot_eats
  have hl : foodLoopEnds lastShot [(5, 5)] := by
    intro x _ hx
    have h2 : newHead lastShot = some ⟨11, 10⟩ := by decide
    rw [h2] at hx
    rw [← Option.some.inj hx]
    exact ⟨(5, 5), by simp, by decide⟩
  obtain ⟨s', hs'⟩ := h.2 hl
  have h3 := h.1 s' hs'
  exact ⟨s', hs', h3.1, h3.2.1, h3.2.2.1 (by decide)⟩

/-- The guard of `handleDirectionInput`: while auto-navigation is active the
button and swipe intents change nothing. -/
theorem handleDirectionInput_autoNav (s : State) (dir : Direction)
    (h : s.autoNavActive = true) : handleDirectionInput s dir = s := by
  simp [handleDirectionInput, h]

/-- C10 (`handleKeyPress` against `handleDirectionInput`): in the reachable
state `autoNavOn`, where auto-navigation is active and the pending direction is
RIGHT, the key `ArrowUp` sets the pending direction to UP, while the same
intent through `handleDirectionInput` leaves it RIGHT. -/
theorem keypress_during_autoNav :
    Reachable autoNavOn
    ∧ autoNavOn.autoNavActive = true ∧ autoNavOn.gameState = GameState.PLAYING
    ∧ autoNavOn.nextDirection = Direction.RIGHT
    ∧ (handleKeyPress autoNavOn keyArrowUp).nextDirection = Direction.UP
    ∧ (handleDirectionInput autoNavOn Direction.UP).nextDirection = Direction.RIGHT :=
  ⟨autoNavOn_reachable, by decide⟩

/-- Counterexample for C11: in the reachable state `runningAway` (PLAYING,
auto-navigation active, snake heading RIGHT on row 10, food behind it on the
same row) the preferred move LEFT is the exact opposite of the committed
direction, and `autoNavigateToApple` leaves `nextDirection = RIGHT`: it sets no
move along the secondary (vertical) axis. -/
theorem autoNav_fallback_counterexample :
    Reachable runningAway
    ∧ runningAway.gameState = GameState.PLAYING ∧ runningAway.autoNavActive = true
    ∧ runningAway.snake.head? ≠ some runningAway.food
    ∧ specPreferredMove runningAway = some Direction.LEFT
    ∧ Direction.LEFT = runningAway.direction.opposite
    ∧ autoNavigateToApple runningAway = some runningAway
    ∧ runningAway.nextDirection = Direction.RIGHT
    ∧ ¬ ∃ s', autoNavigateToApple runningAway = some s'
        ∧ s'.nextDirection.horizontal ≠ Direction.LEFT.horizontal :=
  ⟨runningAway_reachable, by decide, by decide, by decide, by decide, by decide, by decide,
    by decide, by
      rintro ⟨s', h1, h2⟩
      have h3 : autoNavigateToApple runningAway = some runningAway := by decide
      rw [h3] at h1
      rw [← Option.some.inj h1] at h2
      exact h2 (by decide)⟩

/-- C11, amended (`autoNavigateToApple`, lines 641-672): in a PLAYING state with
auto-navigation active whose head and food have a larger absolute delta on one
axis, with `p` the step along that axis that reduces the delta,
`autoNavigateToApple` returns having changed `nextDirection` only; it sets it to
`p` if `p` is not the exact opposite of the committed direction; and if `p` is
the exact opposite and the delta on the other axis is non-zero, it sets it to
the move along that other axis that reduces that delta. -/
theorem autoNav_fallback (s : State) (p : Direction)
    (hplay : s.gameState = GameState.PLAYING) (hnav : s.autoNavActive = true)
    (hp : specPreferredMove s = some p) :
    ∃ s', autoNavigateToApple s = some s'
      ∧ s' = { s with nextDirection := s'.nextDirection }
      ∧ (p ≠ s.direction.opposite → s'.nextDirection = p)
      ∧ (p = s.direction.opposite →
          ∀ d, specSecondaryMove s = some d →
            s'.nextDirection = d ∧ d.horizontal ≠ p.horizontal) := by
  by_cases hnil : s.snake = []
  · simp [specPreferredMove, hnil] at hp
  obtain ⟨head, t, hs⟩ := List.exists_cons_of_ne_nil hnil
  refine ⟨_, autoNavigateToApple_eq s head t hplay hnav hs, rfl, ?_⟩
  simp only [specPreferredMove, hs] at hp
  simp only [specSecondaryMove, hs]
  have h := autoNavChoice_spec _ _ s.direction s.nextDirection p hp
  exact ⟨h.1, fun hopp => (h.2 hopp).1⟩

/-- Witness for C11: in `autoNavOn` (head `(15,10)` heading RIGHT, food `(5,5)`)
the preferred move LEFT is the exact opposite of the committed direction and the
auto-navigation falls back to UP. -/
theorem autoNav_fallback_witness :
    specPreferredMove autoNavOn = some Direction.LEFT
    ∧ Direction.LEFT = autoNavOn.direction.opposite
    ∧ ∃ s', autoNavigateToApple autoNavOn = some s' ∧ s'.nextDirection = Direction.UP := by
  obtain ⟨s', h1, -, -, h3⟩ := autoNav_fallback autoNavOn Direction.LEFT rfl rfl (by decide)
  exact ⟨by decide, by decide, s', h1, (h3 (by decide) Direction.UP (by decide)).1⟩

/-- C12 (`update`, lines 251-257): the started game (reachable) eats the food at
`(11,10)`, the cell its new head enters, and with the draw `(5,5)` the burst
passed to `createParticles` is at `(5,5)`, the new food; on every eating tick
the burst is at the new food, which is never the cell of the food just eaten. -/
theorem particles_at_new_food :
    Reachable started ∧ eatsFood started
    ∧ started.food = ⟨11, 10⟩ ∧ newHead started = some ⟨11, 10⟩
    ∧ (∃ s', update started [(5, 5)] = some s' ∧ s'.food = ⟨5, 5⟩
        ∧ s'.particleBursts = [⟨5, 5⟩])
    ∧ (∀ s rnd s', eatsFood s → update s rnd = some s' →
        s'.particleBursts = s'.food :: s.particleBursts ∧ s'.food ≠ s.food) := by
  refine ⟨started_reachable, ⟨rfl, ⟨11, 10⟩, by decide, by decide, by decide, by decide⟩,
    by decide, by decide, ⟨_, (by decide : update started [(5, 5)] = some
      { (playing [⟨11, 10⟩, ⟨10, 10⟩, ⟨9, 10⟩, ⟨8, 10⟩] Direction.RIGHT ⟨5, 5⟩ 10) with
        particleBursts := [⟨5, 5⟩] }), rfl, rfl⟩, ?_⟩
  intro s rnd s' he h
  rcases update_effect s s' rnd h with ⟨hne, -⟩ | ⟨-, x, s1, hx, h1, h2⟩
  · exact absurd he hne
  · have hb := eatFood_basic _ _ _ h1
    have hg := generateFood_spec _ _ _ hb.1
    obtain ⟨-, y, hy, -, -, hfood⟩ := he
    rw [hx, Option.some.injEq] at hy
    subst hy
    rw [h2]
    simp only [commit] at hb hg ⊢
    refine ⟨hb.2.2.2.2.2.2.2, ?_⟩
    intro heq
    apply hg.2
    rw [heq, ← hfood]
    exact List.mem_cons_self _ _

end SnakeGame
